import Mathlib

/-!
Verification development for the QuizMe extension
(background/background.js, popup/popup.js, lib/llm.js, content/content.js,
options/options.js), shallowly embedded in Lean.

JavaScript strings are Lean `String`s, JS sparse arrays of numbers are
`List (Option Nat)`, `chrome.storage.local` records are explicit `Session`
values, and each message handler is a pure function from its inputs (current
session, extraction result, provider outcome) to its effects (final session,
response, notifications, provider calls).
-/

/-- Model of a parsed JSON value, as produced by the platform `JSON.parse`.
Numbers are restricted to integers (all numbers appearing in quiz documents
are integral); object fields keep insertion order. -/
inductive Json where
  | null : Json
  | bool : Bool → Json
  | num : Int → Json
  | str : String → Json
  | arr : List Json → Json
  | obj : List (String × Json) → Json

/-- Last-binding-wins field lookup, matching how `JSON.parse` builds a JS
object (duplicate keys: the last occurrence is kept). -/
def lookupField (key : String) (fs : List (String × Json)) : Option Json :=
  fs.foldl (fun acc p => if p.1 = key then some p.2 else acc) none

mutual
/-- Model of `JSON.stringify` restricted to the documents this program
produces: strings are emitted verbatim between quotes (no escape sequences),
numbers are integers. -/
def Json.render : Json → String
  | .null => "null"
  | .bool true => "true"
  | .bool false => "false"
  | .num i => toString i
  | .str s => "\"" ++ s ++ "\""
  | .arr xs => "[" ++ Json.renderArr xs ++ "]"
  | .obj fs => "\x7b" ++ Json.renderObj fs ++ "\x7d"

def Json.renderArr : List Json → String
  | [] => ""
  | [x] => Json.render x
  | x :: y :: xs => Json.render x ++ "," ++ Json.renderArr (y :: xs)

def Json.renderObj : List (String × Json) → String
  | [] => ""
  | [(k, v)] => "\"" ++ k ++ "\":" ++ Json.render v
  | (k, v) :: f :: fs =>
      "\"" ++ k ++ "\":" ++ Json.render v ++ "," ++ Json.renderObj (f :: fs)
end

/-- Characters the JS string content of a parsed string literal may not
contain in this model: closing quote ends the literal, backslash (escapes)
is unsupported. Returns the string contents and the rest of the input. -/
def parseStrChars : List Char → Option (List Char × List Char)
  | [] => none
  | c :: cs =>
    if c = '"' then some ([], cs)
    else if c = '\\' then none
    else match parseStrChars cs with
      | some (body, rest) => some (c :: body, rest)
      | none => none

def digitsToNat (ds : List Char) : Nat :=
  ds.foldl (fun a c => a * 10 + (c.toNat - 48)) 0

/-- Integer literal parser (optional leading minus, then digits). -/
def parseIntVal : List Char → Option (Int × List Char)
  | [] => none
  | c :: cs =>
    if c = '-' then
      let ds := cs.takeWhile (·.isDigit)
      if ds = [] then none
      else some (-(Int.ofNat (digitsToNat ds)), cs.drop ds.length)
    else
      let ds := (c :: cs).takeWhile (·.isDigit)
      if ds = [] then none
      else some (Int.ofNat (digitsToNat ds), (c :: cs).drop ds.length)

def skipWs (s : List Char) : List Char := s.dropWhile (·.isWhitespace)

mutual
/-- Fuel-indexed recursive-descent value parser: the executable core of the
model of the platform `JSON.parse` (restricted to escape-free strings and
integer numbers). -/
def parseVal : Nat → List Char → Option (Json × List Char)
  | 0, _ => none
  | Nat.succ fuel, s =>
    match skipWs s with
    | [] => none
    | c :: cs =>
      if c = '"' then
        match parseStrChars cs with
        | some (body, rest) => some (Json.str (String.mk body), rest)
        | none => none
      else if c = '\x7b' then
        match skipWs cs with
        | '\x7d' :: rest => some (Json.obj [], rest)
        | s2 =>
          match parseObjItems fuel s2 with
          | some (fields, rest) => some (Json.obj fields, rest)
          | none => none
      else if c = '[' then
        match skipWs cs with
        | ']' :: rest => some (Json.arr [], rest)
        | s2 =>
          match parseArrItems fuel s2 with
          | some (items, rest) => some (Json.arr items, rest)
          | none => none
      else if c = 't' then
        if ['r', 'u', 'e'].isPrefixOf cs then some (Json.bool true, cs.drop 3) else none
      else if c = 'f' then
        if ['a', 'l', 's', 'e'].isPrefixOf cs then some (Json.bool false, cs.drop 4) else none
      else if c = 'n' then
        if ['u', 'l', 'l'].isPrefixOf cs then some (Json.null, cs.drop 3) else none
      else
        match parseIntVal (c :: cs) with
        | some (i, rest) => some (Json.num i, rest)
        | none => none

/-- Parses one or more comma-separated array items followed by `]`. -/
def parseArrItems : Nat → List Char → Option (List Json × List Char)
  | 0, _ => none
  | Nat.succ fuel, s =>
    match parseVal fuel s with
    | none => none
    | some (j, rest) =>
      match skipWs rest with
      | ',' :: rest2 =>
        match parseArrItems fuel rest2 with
        | some (items, rest3) => some (j :: items, rest3)
        | none => none
      | ']' :: rest2 => some ([j], rest2)
      | _ => none

/-- Parses one or more comma-separated `"key": value` fields followed by
a closing brace. -/
def parseObjItems : Nat → List Char → Option (List (String × Json) × List Char)
  | 0, _ => none
  | Nat.succ fuel, s =>
    match skipWs s with
    | '"' :: cs =>
      match parseStrChars cs with
      | none => none
      | some (key, rest) =>
        match skipWs rest with
        | ':' :: rest2 =>
          match parseVal fuel rest2 with
          | none => none
          | some (v, rest3) =>
            match skipWs rest3 with
            | ',' :: rest4 =>
              match parseObjItems fuel rest4 with
              | some (fields, rest5) => some ((String.mk key, v) :: fields, rest5)
              | none => none
            | '\x7d' :: rest4 => some ([(String.mk key, v)], rest4)
            | _ => none
        | _ => none
    | _ => none
end

/-- Model of the platform `JSON.parse`: parses one value and requires that
only whitespace remains. Returns `none` where `JSON.parse` would throw a
SyntaxError. -/
def jsonParse (s : String) : Option Json :=
  match parseVal (s.length + 1) s.data with
  | some (j, rest) => if skipWs rest = [] then some j else none
  | none => none

/-- The backtick character (written by code point to keep it out of the
source text). -/
def backtick : Char := Char.ofNat 96

/-- The three-backtick code-fence marker of the regex in `parseQuizJSON`. -/
def fenceMarker : List Char := [backtick, backtick, backtick]

/-- Splits a character list at the first occurrence of `pat`, returning the
part before the occurrence and the part after it; `none` when `pat` does not
occur. This is the scanning core shared by the fence-extraction model and the
substring test. -/
def splitFirst (pat : List Char) : List Char → Option (List Char × List Char)
  | [] => if pat = [] then some ([], []) else none
  | c :: cs =>
    if pat.isPrefixOf (c :: cs) then some ([], (c :: cs).drop pat.length)
    else
      match splitFirst pat cs with
      | some (pre, post) => some (c :: pre, post)
      | none => none

/-- Boolean substring test: `containsSubB hay needle` holds when `needle`
occurs in `hay`. -/
def containsSubB (hay needle : String) : Bool :=
  (splitFirst needle.data hay.data).isSome

/-- Propositional substring statement used by claims that say a message
"contains" some text. -/
def ContainsSub (hay needle : String) : Prop :=
  ∃ pre post, hay = pre ++ needle ++ post

/-- Model of the match of `raw.match(/BTBT(?:json)?\s*([\s\S]*?)BTBT/)` in
`parseQuizJSON` (BTBT standing for the three-backtick fence): after the first
fence marker, an optional `json` language tag and leading whitespace are
skipped, and the capture group runs (lazily) up to the next fence marker.
Since neither `json` nor whitespace can overlap a backtick run, the
backtracking regex and this direct scan agree. -/
def extractFence (raw : String) : Option String :=
  match splitFirst fenceMarker raw.data with
  | none => none
  | some (_, rest) =>
    let rest1 := if ("json".data).isPrefixOf rest then rest.drop 4 else rest
    let rest2 := rest1.dropWhile (·.isWhitespace)
    match splitFirst fenceMarker rest2 with
    | none => none
    | some (inner, _) => some (String.mk inner)

/-- Model of `String.prototype.trim`: drop whitespace from both ends. -/
def jsTrim (s : String) : String :=
  String.mk ((((s.data.dropWhile (·.isWhitespace)).reverse).dropWhile (·.isWhitespace)).reverse)

/-- `parseQuizJSON` from lib/llm.js, parametrized by the platform JSON parser
`jparse` (the concrete model is `jsonParse`): try a direct parse; on failure
extract a fenced code block and parse its trimmed contents; the error of a
failed inner parse propagates as the platform SyntaxError (whose message
reports the unexpected token, never the raw input), and with no fenced block
the thrown error message is the literal string from the source. -/
def parseQuizJSON (jparse : String → Option Json) (raw : String) : Except String Json :=
  match jparse raw with
  | some j => Except.ok j
  | none =>
    match extractFence raw with
    | some inner =>
      match jparse (jsTrim inner) with
      | some j => Except.ok j
      | none => Except.error "Unexpected token in JSON"
    | none => Except.error "Failed to parse quiz response as JSON"

/-- Error message thrown by `generateWithOllama` on a non-2xx response. -/
def ollamaErrorMessage (status : Nat) (body : String) : String :=
  "Ollama request failed (" ++ toString status ++ "): " ++ body

/-- Error message thrown by `generateWithOpenAI` on a non-2xx response. -/
def openaiErrorMessage (status : Nat) (body : String) : String :=
  "OpenAI request failed (" ++ toString status ++ "): " ++ body

/-- Error message thrown by `generateWithAnthropic` on a non-2xx response. -/
def anthropicErrorMessage (status : Nat) (body : String) : String :=
  "Anthropic request failed (" ++ toString status ++ "): " ++ body

/-- The `quizState` values stored in `chrome.storage.local`. -/
inductive QuizState where
  | idle
  | generating
  | ready
  | in_progress
  | completed
  | error
deriving DecidableEq, Repr

/-- The quiz session record in `chrome.storage.local`, with the defaults of
`getQuizSession` corresponding to `none` / `0` / `[]`. A JS sparse answer
array is a `List (Option Nat)` (`none` = hole/undefined slot). -/
structure Session where
  quizState : QuizState
  quizData : Option Json
  quizCurrentQuestion : Nat
  quizUserAnswers : List (Option Nat)
  quizError : Option String
  quizSourceText : Option String
  quizExplanations : Option (List Json)

/-- The default (`idle`) session written by `clearQuizSession` and assumed by
`getQuizSession` on first access. -/
def clearedSession : Session :=
  { quizState := .idle, quizData := none, quizCurrentQuestion := 0,
    quizUserAnswers := [], quizError := none, quizSourceText := none,
    quizExplanations := none }

/-- Result of a JS property access `j.key`: `none` models a thrown TypeError
(reading a property of `null`), `some .undefined` models `undefined`, and
`some (.val v)` an actual value. -/
inductive JsVal where
  | undefined : JsVal
  | val : Json → JsVal

def jsGetProp (j : Json) (key : String) : Option JsVal :=
  match j with
  | .null => none
  | .obj fs =>
    match lookupField key fs with
    | some v => some (.val v)
    | none => some .undefined
  | _ => some .undefined

/-- Evaluation of `x.length` on a property-access result: `none` models a
thrown TypeError (`x` is `undefined` or `null`), `some none` models
`undefined` (`length` of a number/boolean/plain object), `some (some n)` an
actual numeric length (array or string). -/
def jsGetLength : JsVal → Option (Option Nat)
  | .undefined => none
  | .val .null => none
  | .val (.arr xs) => some (some xs.length)
  | .val (.str s) => some (some s.data.length)
  | .val _ => some none

/-- JS truthiness of a JSON value. -/
def jsTruthy : Json → Bool
  | .null => false
  | .bool b => b
  | .num i => !(i = 0)
  | .str s => !(s = "")
  | .arr _ => true
  | .obj _ => true

/-- JS truthiness of a property-access result (`undefined` is falsy). -/
def jsTruthyV : JsVal → Bool
  | .undefined => false
  | .val j => jsTruthy j

/-- The string interpolated for `quiz.questions.length` in the ready
notification: a number, or the text `undefined` when `length` evaluated to
`undefined`. -/
def lenString : Option Nat → String
  | some n => toString n
  | none => "undefined"

/-- The settings fields of `getSettings` that the orchestrator itself reads;
the provider/model/key fields only parametrize the provider call, which the
embedding takes as an explicit input (`providerResult`). -/
structure Settings where
  maxQuestions : Nat
deriving Repr

/-- The `{ text, wordCount }` record returned by the injected
`extractPageText`. -/
structure Extraction where
  text : String
  wordCount : Nat

/-- `questionCount` as computed in `handleGenerateQuiz`:
`Math.min(Math.max(Math.floor(wordCount / 150), 3), settings.maxQuestions || 15)`;
`maxQuestions = 0` is JS-falsy, hence the 15 fallback. -/
def questionCountOf (wordCount : Nat) (settings : Settings) : Nat :=
  min (max (wordCount / 150) 3) (if settings.maxQuestions = 0 then 15 else settings.maxQuestions)

/-- The response sent back through `sendResponse`: success (the
`{ success: true, data: { state: generating } }` shape) or failure with an
error message. -/
inductive GenResponse where
  | ok : GenResponse
  | err : String → GenResponse
deriving DecidableEq, Repr

/-- A `chrome.notifications.create` event emitted by the background worker. -/
inductive Notification where
  | quizReady : String → Notification
  | quizError : String → Notification
deriving DecidableEq, Repr

/-- Observable effects of one `handleGenerateQuiz` invocation. -/
structure GenResult where
  finalSession : Session
  response : GenResponse
  providerCalls : Nat
  requestedQuestions : Option Nat
  notification : Option Notification
  explanationsSpawned : Bool

/-- `handleGenerateQuiz` from background/background.js as a pure function.
Inputs standing for the environment: `tabOk` (an active tab with an id was
found), `extraction` (the injected `extractPageText` result, `none` when the
script returned nothing), and `providerResult` (the outcome of
`llm.generateQuiz`, an `Except` combining provider HTTP errors and parse
errors). `providerCalls` counts dispatched `generateQuiz` provider calls.
Each storage write of the source is applied in order; the catch clause only
writes `quizState`/`quizError`, so the other fields keep their values from
the preceding write. The `quiz.questions.length` interpolation in the ready
notification is evaluated with JS semantics: if it throws, control moves to
the catch clause after the `ready` write and the explanation task is never
spawned (the TypeError message is abstracted as a constant). -/
def handleGenerateQuiz (s : Session) (tabOk : Bool) (extraction : Option Extraction)
    (settings : Settings) (providerResult : Except String Json) : GenResult :=
  if tabOk = false then
    { finalSession := { s with quizState := .error, quizError := some "No active tab found" },
      response := .err "No active tab found",
      providerCalls := 0, requestedQuestions := none, notification := none,
      explanationsSpawned := false }
  else
    match extraction with
    | none =>
      { finalSession :=
          { s with quizState := .error,
                   quizError := some "Failed to extract text from page" },
        response := .err "Failed to extract text from page",
        providerCalls := 0, requestedQuestions := none, notification := none,
        explanationsSpawned := false }
    | some ext =>
      if ext.wordCount < 50 then
        { finalSession :=
            { s with quizState := .error,
                     quizError := some "Not enough readable content on this page" },
          response := .err "Not enough readable content on this page",
          providerCalls := 0, requestedQuestions := none, notification := none,
          explanationsSpawned := false }
      else
        let sGen : Session :=
          { quizState := .generating, quizData := none, quizCurrentQuestion := 0,
            quizUserAnswers := [], quizError := none, quizSourceText := some ext.text,
            quizExplanations := none }
        let qc := questionCountOf ext.wordCount settings
        match providerResult with
        | .error msg =>
          { finalSession := { sGen with quizState := .error, quizError := some msg },
            response := .ok,
            providerCalls := 1, requestedQuestions := some qc,
            notification := some (.quizError ("Quiz generation failed: " ++ msg)),
            explanationsSpawned := false }
        | .ok quiz =>
          let sReady : Session :=
            { sGen with quizState := .ready, quizData := some quiz,
                        quizCurrentQuestion := 0, quizUserAnswers := [],
                        quizError := none }
          match jsGetProp quiz "questions" with
          | none =>
            { finalSession :=
                { sReady with quizState := .error, quizError := some "TypeError" },
              response := .ok, providerCalls := 1, requestedQuestions := some qc,
              notification := some (.quizError ("Quiz generation failed: " ++ "TypeError")),
              explanationsSpawned := false }
          | some qv =>
            match jsGetLength qv with
            | none =>
              { finalSession :=
                  { sReady with quizState := .error, quizError := some "TypeError" },
                response := .ok, providerCalls := 1, requestedQuestions := some qc,
                notification := some (.quizError ("Quiz generation failed: " ++ "TypeError")),
                explanationsSpawned := false }
            | some lenOpt =>
              { finalSession := sReady,
                response := .ok, providerCalls := 1, requestedQuestions := some qc,
                notification := some (.quizReady
                  ("Your quiz is ready! " ++ lenString lenOpt ++ " questions generated.")),
                explanationsSpawned := true }

/-- The `result && result.explanations && Array.isArray(result.explanations)`
guard of `generateExplanationsInBackground`: the explanations array of the
parsed document, when the document is truthy, has an `explanations` property,
and that property is an array. -/
def explanationsOf (j : Json) : Option (List Json) :=
  if jsTruthy j then
    match jsGetProp j "explanations" with
    | some (.val (Json.arr xs)) => some xs
    | _ => none
  else none

/-- `generateExplanationsInBackground` from background/background.js: on a
successful provider call whose parsed document passes the array guard, write
only `quizExplanations`; in every other case (provider/parse failure, or a
document without a proper explanations array) leave the session untouched. -/
def generateExplanationsInBackground (s : Session) (result : Except String Json) : Session :=
  match result with
  | .error _ => s
  | .ok j =>
    match explanationsOf j with
    | some xs => { s with quizExplanations := some xs }
    | none => s

/-- The `saveProgress` message payload handled by `handleSaveProgress`
(each field optional: only present fields are written). -/
structure SaveMsg where
  state : Option QuizState
  currentQuestion : Option Nat
  userAnswers : Option (List (Option Nat))

/-- `handleSaveProgress` from background/background.js: a partial
`chrome.storage.local.set` touching only the fields present in the message. -/
def handleSaveProgress (s : Session) (m : SaveMsg) : Session :=
  { s with
    quizCurrentQuestion := m.currentQuestion.getD s.quizCurrentQuestion,
    quizUserAnswers := m.userAnswers.getD s.quizUserAnswers,
    quizState := m.state.getD s.quizState }

/-- The `saveProgress('in_progress', 0, [])` message sent by the popup when
it first sees a `ready` session. -/
def startInProgressMsg : SaveMsg :=
  { state := some .in_progress, currentQuestion := some 0, userAnswers := some [] }

/-- The popup views toggled by `showView`. -/
inductive View where
  | setup
  | readyView
  | loading
  | quizView
  | results
  | errorView
deriving DecidableEq, Repr

/-- `quiz && quiz.questions` truthiness check of `restoreSession`
(a falsy `quiz` short-circuits; property access on a non-object yields
`undefined`, which is falsy). -/
def hasQuestions : Option Json → Bool
  | none => false
  | some j =>
    if jsTruthy j then
      match jsGetProp j "questions" with
      | some v => jsTruthyV v
      | none => false
    else false

/-- `showReadyOrSetup` from popup/popup.js, with `configured` standing for
`isConfigured(data)` (a pure function of the provider settings). -/
def showReadyOrSetup (configured : Bool) : View :=
  if configured then .readyView else .setup

/-- `restoreSession` from popup/popup.js as a function from the stored
session (and the configured-provider test) to the view shown and the
`saveProgress` message sent, if any. The `generating` branch additionally
starts polling (`pollStep`). -/
def restoreSession (s : Session) (configured : Bool) : View × Option SaveMsg :=
  match s.quizState with
  | .generating => (.loading, none)
  | .ready => (.quizView, some startInProgressMsg)
  | .in_progress =>
    if hasQuestions s.quizData then (.quizView, none)
    else (showReadyOrSetup configured, none)
  | .completed =>
    if hasQuestions s.quizData then (.results, none)
    else (showReadyOrSetup configured, none)
  | .error => (.errorView, none)
  | .idle => (showReadyOrSetup configured, none)

/-- One tick of `pollForQuizReady`: on `ready`, stop polling, show the quiz
view and persist `in_progress`; on `error`, stop and show the error view;
otherwise keep polling (`none`). -/
def pollStep (s : Session) : Option (View × Option SaveMsg) :=
  match s.quizState with
  | .ready => some (.quizView, some startInProgressMsg)
  | .error => some (.errorView, none)
  | _ => none

/-- Observable outcome of `nextQuestion`: the new `currentQuestion` of the
popup and the `saveProgress` message sent (`none` when the advance was the
rejected no-op). -/
structure AdvanceResult where
  currentQuestion : Nat
  saved : Option SaveMsg

/-- `nextQuestion` from popup/popup.js. `numQuestions` is
`quiz.questions.length`; `userAnswers.getD i none` models the
`userAnswers[currentQuestion] === undefined` test (out-of-range and holes
are both `undefined`). -/
def nextQuestion (numQuestions : Nat) (currentQuestion : Nat)
    (userAnswers : List (Option Nat)) : AdvanceResult :=
  if userAnswers.getD currentQuestion none = none then
    { currentQuestion := currentQuestion, saved := none }
  else if currentQuestion < numQuestions - 1 then
    { currentQuestion := currentQuestion + 1,
      saved := some { state := some .in_progress,
                      currentQuestion := some (currentQuestion + 1),
                      userAnswers := some userAnswers } }
  else
    { currentQuestion := currentQuestion,
      saved := some { state := some .completed,
                      currentQuestion := some currentQuestion,
                      userAnswers := some userAnswers } }

/-- JS indexing `xs[i]` on an array (`undefined` out of range). -/
def indexV (xs : List Json) (i : Nat) : JsVal :=
  match xs.get? i with
  | some j => .val j
  | none => .undefined

/-- The explanation chosen for question `i` in `showResults`:
`(detailedExplanations && detailedExplanations[i]) || q.explanation || ''`.
`detailed` is the stored `quizExplanations` (`none` when absent/null), and
`qExpl` the question's built-in `explanation` property. -/
def resultExplanation (detailed : Option (List Json)) (i : Nat) (qExpl : JsVal) : JsVal :=
  let d : JsVal :=
    match detailed with
    | some xs => indexV xs i
    | none => .undefined
  if jsTruthyV d then d
  else if jsTruthyV qExpl then qExpl
  else .val (Json.str "")

/-- The `questions` property of a parsed quiz document, when it is an
array. -/
def jsonQuestionsArr (j : Json) : Option (List Json) :=
  match j with
  | .obj fs =>
    match lookupField "questions" fs with
    | some (Json.arr xs) => some xs
    | _ => none
  | _ => none

/-- Modelled from the spec: the Question invariant of the data model,
`options.length == 4` and `0 ≤ correctIndex < 4`, as a check on a parsed
question object. -/
def questionOkB (q : Json) : Bool :=
  match q with
  | .obj fs =>
    (match lookupField "options" fs with
     | some (Json.arr xs) => xs.length = 4
     | _ => false)
    &&
    (match lookupField "correctIndex" fs with
     | some (Json.num i) => decide (0 ≤ i) && decide (i < 4)
     | _ => false)
  | _ => false

/-- Whether every question of the session's stored quiz document satisfies
the Question invariant (false when no quiz document or no questions array is
stored). -/
def sessionQuestionsOkB (s : Session) : Bool :=
  match s.quizData with
  | some d =>
    match jsonQuestionsArr d with
    | some qs => qs.all questionOkB
    | none => false
  | none => false

/-- Modelled from the spec: `clamp(v, lo, hi) = min(max(v, lo), hi)`, the
question-count formula the spec states. -/
def clampSpec (v lo hi : Nat) : Nat := min (max v lo) hi

/-- A candidate element as seen by `findContentContainer` in
content/content.js: the fields read by `isHiddenOrTiny` (computed style and
bounding box) and `scoreElement` (`innerText` and direct child count). -/
structure Elem where
  innerText : String
  childCount : Nat
  displayNone : Bool
  visibilityHidden : Bool
  width : Nat
  height : Nat
deriving DecidableEq, Repr

/-- `isHiddenOrTiny` from content/content.js. -/
def isHiddenOrTiny (el : Elem) : Bool :=
  el.displayNone || el.visibilityHidden || el.width < 50 || el.height < 50

/-- `scoreElement` from content/content.js:
`el.innerText.trim().length / (el.children.length || 1)`, over the
rationals. -/
def scoreElement (el : Elem) : ℚ :=
  ((jsTrim el.innerText).data.length : ℚ) /
    ((if el.childCount = 0 then 1 else el.childCount : Nat) : ℚ)

/-- The body of the candidate loop of `findContentContainer`: skip hidden or
tiny elements, keep the element when its score strictly exceeds the best so
far. -/
def fccStep (acc : Option Elem × ℚ) (el : Elem) : Option Elem × ℚ :=
  if isHiddenOrTiny el then acc
  else if acc.2 < scoreElement el then (some el, scoreElement el) else acc

/-- `findContentContainer` from content/content.js: `candidates` is the
concatenation, in selector-priority and document order, of the
`querySelectorAll` results for the fixed selector list; `body` is
`document.body`. Starts from `best = null`, `bestScore = 0` and returns
`best || document.body`. -/
def findContentContainer (candidates : List Elem) (body : Elem) : Elem :=
  ((candidates.foldl fccStep (none, 0)).1).getD body

/-- A well-formed quiz question document as requested by the quiz prompt:
four options and a correct index in range. -/
def exampleQuestion : Json :=
  Json.obj [("question", Json.str "Q"),
            ("options", Json.arr [Json.str "a", Json.str "b", Json.str "c", Json.str "d"]),
            ("correctIndex", Json.num 0),
            ("explanation", Json.str "E")]

/-- A well-formed quiz document with one question. -/
def exampleDoc : Json := Json.obj [("questions", Json.arr [exampleQuestion])]

/-- A question violating the spec invariant: one option, correct index 7. -/
def badQuestion : Json :=
  Json.obj [("question", Json.str "Q"),
            ("options", Json.arr [Json.str "only"]),
            ("correctIndex", Json.num 7),
            ("explanation", Json.str "E")]

/-- A quiz document whose only question violates the Question invariant. -/
def badDoc : Json := Json.obj [("questions", Json.arr [badQuestion])]

/-- An explanations document as produced by the explanation prompt. -/
def exampleExplDoc : Json :=
  Json.obj [("explanations", Json.arr [Json.str "detailed explanation one"])]

/-- Wraps a string in a fenced code block with the `json` language tag
(the three-backtick marker, `json`, a newline, the content, a newline and
the closing marker). -/
def fenceWrap (s : String) : String :=
  String.mk (fenceMarker ++ "json\n".data ++ s.data ++ "\n".data ++ fenceMarker)

/-- The first character of `s` exists and is not whitespace. -/
def headNonWs (s : String) : Bool :=
  match s.data with
  | [] => false
  | c :: _ => !c.isWhitespace

/-- The last character of `s` exists and is not whitespace. -/
def lastNonWs (s : String) : Bool :=
  match s.data.getLast? with
  | some c => !c.isWhitespace
  | none => false

/-- A session in the middle of a generation (state `generating`). -/
def generatingSession : Session :=
  { quizState := .generating, quizData := none, quizCurrentQuestion := 0,
    quizUserAnswers := [], quizError := none, quizSourceText := some "earlier text",
    quizExplanations := none }

/-- A session holding a freshly generated quiz (state `ready`). -/
def readySession : Session :=
  { quizState := .ready, quizData := some exampleDoc, quizCurrentQuestion := 0,
    quizUserAnswers := [], quizError := none, quizSourceText := some "source text",
    quizExplanations := none }

/-- A visible, normally sized candidate region with no visible text
(score 0). -/
def emptyCandidate : Elem :=
  { innerText := "", childCount := 0, displayNone := false,
    visibilityHidden := false, width := 200, height := 200 }

/-- The page body element. -/
def pageBody : Elem :=
  { innerText := "BODY BODY BODY", childCount := 3, displayNone := false,
    visibilityHidden := false, width := 800, height := 600 }

/-- A visible candidate with a modest text density. -/
def candA : Elem :=
  { innerText := "short text", childCount := 2, displayNone := false,
    visibilityHidden := false, width := 300, height := 300 }

/-- A visible candidate with a higher text density than `candA`. -/
def candB : Elem :=
  { innerText := "a much longer block of article text for the density score",
    childCount := 2, displayNone := false, visibilityHidden := false,
    width := 300, height := 300 }

/-- C2: for every extracted word count of at least 50 and every configured
maximum (3..15), the number of questions requested from the provider is
`clamp(floor(wordCount / 150), 3, maxQuestions)`. -/
theorem questionCount_is_clamp (s : Session) (ext : Extraction) (settings : Settings)
    (pr : Except String Json) (hw : 50 ≤ ext.wordCount)
    (hlo : 3 ≤ settings.maxQuestions) (hhi : settings.maxQuestions ≤ 15) :
    (handleGenerateQuiz s true (some ext) settings pr).requestedQuestions =
      some (clampSpec (ext.wordCount / 150) 3 settings.maxQuestions) := by
  have hne : ¬ ext.wordCount < 50 := not_lt.mpr hw
  have hM : ¬ settings.maxQuestions = 0 := by omega
  cases pr with
  | error msg =>
    simp [handleGenerateQuiz, questionCountOf, clampSpec, hne, hM]
  | ok quiz =>
    cases hq : jsGetProp quiz "questions" with
    | none => simp [handleGenerateQuiz, questionCountOf, clampSpec, hne, hM, hq]
    | some qv =>
      cases hl : jsGetLength qv with
      | none => simp [handleGenerateQuiz, questionCountOf, clampSpec, hne, hM, hq, hl]
      | some lenOpt => simp [handleGenerateQuiz, questionCountOf, clampSpec, hne, hM, hq, hl]

/-- Witness for C2 at the three worked examples of the spec:
W=1000, M=15 gives 6; W=100, M=15 gives 3; W=3000, M=5 gives 5. -/
theorem questionCount_is_clamp_witness :
    (handleGenerateQuiz clearedSession true (some ⟨"t", 1000⟩) ⟨15⟩
        (Except.error "e")).requestedQuestions = some 6 ∧
    (handleGenerateQuiz clearedSession true (some ⟨"t", 100⟩) ⟨15⟩
        (Except.error "e")).requestedQuestions = some 3 ∧
    (handleGenerateQuiz clearedSession true (some ⟨"t", 3000⟩) ⟨5⟩
        (Except.error "e")).requestedQuestions = some 5 :=
  ⟨(questionCount_is_clamp clearedSession ⟨"t", 1000⟩ ⟨15⟩ (Except.error "e")
      (by decide) (by decide) (by decide)).trans (by decide),
   (questionCount_is_clamp clearedSession ⟨"t", 100⟩ ⟨15⟩ (Except.error "e")
      (by decide) (by decide) (by decide)).trans (by decide),
   (questionCount_is_clamp clearedSession ⟨"t", 3000⟩ ⟨5⟩ (Except.error "e")
      (by decide) (by decide) (by decide)).trans (by decide)⟩

/-- C3: when the extracted word count is below 50, `handleGenerateQuiz`
moves the session directly to `error` with the "not enough content" message
and dispatches no provider call. -/
theorem lowWordCount_errors_without_provider_call (s : Session) (ext : Extraction)
    (settings : Settings) (pr : Except String Json) (hw : ext.wordCount < 50) :
    (handleGenerateQuiz s true (some ext) settings pr).finalSession =
      { s with quizState := .error,
               quizError := some "Not enough readable content on this page" } ∧
    (handleGenerateQuiz s true (some ext) settings pr).providerCalls = 0 ∧
    (handleGenerateQuiz s true (some ext) settings pr).response =
      GenResponse.err "Not enough readable content on this page" := by
  refine ⟨?_, ?_, ?_⟩ <;> simp [handleGenerateQuiz, hw]

/-- Witness for C3 at a concrete 10-word page. -/
theorem lowWordCount_errors_without_provider_call_witness :
    (handleGenerateQuiz clearedSession true (some ⟨"short", 10⟩) ⟨15⟩
        (Except.ok exampleDoc)).providerCalls = 0 ∧
    (handleGenerateQuiz clearedSession true (some ⟨"short", 10⟩) ⟨15⟩
        (Except.ok exampleDoc)).finalSession.quizState = .error :=
  have h := lowWordCount_errors_without_provider_call clearedSession ⟨"short", 10⟩ ⟨15⟩
    (Except.ok exampleDoc) (by decide)
  ⟨h.2.1, by rw [h.1]⟩

/-- C1 counterexample: a start invoked while the session is already
`generating` still dispatches a provider call — `handleGenerateQuiz` never
reads the stored state, so nothing rejects or no-ops the second start. -/
theorem secondStart_dispatches_second_provider_call :
    generatingSession.quizState = .generating ∧
    (handleGenerateQuiz generatingSession true (some ⟨"words", 150⟩) ⟨15⟩
        (Except.ok exampleDoc)).providerCalls = 1 :=
  ⟨rfl, rfl⟩

/-- C1 amended: `handleGenerateQuiz` does not gate on the current session
state; invoked while `quizState = generating` (with enough extracted
content), it runs the full flow again and dispatches another provider
generate call. -/
theorem handleGenerateQuiz_has_no_state_gate (s : Session) (ext : Extraction)
    (settings : Settings) (pr : Except String Json)
    (hgen : s.quizState = .generating) (hw : 50 ≤ ext.wordCount) :
    (handleGenerateQuiz s true (some ext) settings pr).providerCalls = 1 := by
  have hne : ¬ ext.wordCount < 50 := not_lt.mpr hw
  cases pr with
  | error msg => simp [handleGenerateQuiz, hne]
  | ok quiz =>
    cases hq : jsGetProp quiz "questions" with
    | none => simp [handleGenerateQuiz, hne, hq]
    | some qv =>
      cases hl : jsGetLength qv with
      | none => simp [handleGenerateQuiz, hne, hq, hl]
      | some lenOpt => simp [handleGenerateQuiz, hne, hq, hl]

/-- Witness for the amended C1 at a concrete generating session. -/
theorem handleGenerateQuiz_has_no_state_gate_witness :
    (handleGenerateQuiz generatingSession true (some ⟨"more words", 600⟩) ⟨15⟩
        (Except.error "network down")).providerCalls = 1 :=
  handleGenerateQuiz_has_no_state_gate generatingSession ⟨"more words", 600⟩ ⟨15⟩
    (Except.error "network down") rfl (by decide)

/-- C4: a provider or parse failure during primary generation leaves the
session in `error` with the thrown message, with no quiz data retained
(the `generating` write cleared it and the catch clause does not restore
it), and emits a failure notification carrying the message; the message of
an HTTP failure (here Ollama) contains the status code. -/
theorem providerFailure_sets_error_state (s : Session) (ext : Extraction)
    (settings : Settings) (msg : String) (hw : 50 ≤ ext.wordCount) :
    (handleGenerateQuiz s true (some ext) settings (Except.error msg)).finalSession.quizState
      = .error ∧
    (handleGenerateQuiz s true (some ext) settings (Except.error msg)).finalSession.quizData
      = none ∧
    (handleGenerateQuiz s true (some ext) settings (Except.error msg)).finalSession.quizError
      = some msg ∧
    (handleGenerateQuiz s true (some ext) settings (Except.error msg)).notification
      = some (.quizError ("Quiz generation failed: " ++ msg)) ∧
    (∀ status body, ContainsSub (ollamaErrorMessage status body) (toString status)) := by
  have hne : ¬ ext.wordCount < 50 := not_lt.mpr hw
  refine ⟨?_, ?_, ?_, ?_, ?_⟩
  · simp [handleGenerateQuiz, hne]
  · simp [handleGenerateQuiz, hne]
  · simp [handleGenerateQuiz, hne]
  · simp [handleGenerateQuiz, hne]
  · intro status body
    exact ⟨"Ollama request failed (", "): " ++ body,
      String.append_assoc ("Ollama request failed (" ++ toString status) "): " body⟩

/-- Witness for C4 at a concrete HTTP 500 failure. -/
theorem providerFailure_sets_error_state_witness :
    (handleGenerateQuiz clearedSession true (some ⟨"t", 600⟩) ⟨15⟩
        (Except.error (ollamaErrorMessage 500 "Internal Server Error"))).finalSession.quizState
      = .error ∧
    (handleGenerateQuiz clearedSession true (some ⟨"t", 600⟩) ⟨15⟩
        (Except.error (ollamaErrorMessage 500 "Internal Server Error"))).finalSession.quizData
      = none ∧
    ContainsSub (ollamaErrorMessage 500 "Internal Server Error") (toString 500) :=
  have h := providerFailure_sets_error_state clearedSession ⟨"t", 600⟩ ⟨15⟩
    (ollamaErrorMessage 500 "Internal Server Error") (by decide)
  ⟨h.1, h.2.1, h.2.2.2.2 500 "Internal Server Error"⟩

/-- C5: the background explanation enrichment only ever writes
`quizExplanations`: every other session field is unchanged in every outcome;
on failure the session is entirely untouched; on success with a proper
explanations array only `quizExplanations` is set; and with no stored
explanations the results view falls back to the question's built-in
explanation (or the empty string when that too is falsy). -/
theorem explanations_touch_only_explanations (s : Session) (res : Except String Json)
    (i : Nat) (qExpl : JsVal) :
    ((generateExplanationsInBackground s res).quizState = s.quizState ∧
     (generateExplanationsInBackground s res).quizData = s.quizData ∧
     (generateExplanationsInBackground s res).quizCurrentQuestion = s.quizCurrentQuestion ∧
     (generateExplanationsInBackground s res).quizUserAnswers = s.quizUserAnswers ∧
     (generateExplanationsInBackground s res).quizError = s.quizError ∧
     (generateExplanationsInBackground s res).quizSourceText = s.quizSourceText) ∧
    (∀ e, res = Except.error e → generateExplanationsInBackground s res = s) ∧
    (∀ j xs, res = Except.ok j → explanationsOf j = some xs →
      (generateExplanationsInBackground s res).quizExplanations = some xs) ∧
    (resultExplanation none i qExpl =
      if jsTruthyV qExpl then qExpl else .val (Json.str "")) := by
  refine ⟨?_, ?_, ?_, ?_⟩
  · cases res with
    | error e => exact ⟨rfl, rfl, rfl, rfl, rfl, rfl⟩
    | ok j =>
      cases hx : explanationsOf j with
      | none => simp [generateExplanationsInBackground, hx]
      | some xs => simp [generateExplanationsInBackground, hx]
  · intro e he; subst he; rfl
  · intro j xs hj hx; subst hj
    simp [generateExplanationsInBackground, hx]
  · simp [resultExplanation, jsTruthyV]

/-- Witness for C5: a failed enrichment leaves a concrete ready session
unchanged, a successful one writes the explanations array, and the results
view falls back to the built-in explanation. -/
theorem explanations_touch_only_explanations_witness :
    generateExplanationsInBackground readySession (Except.error "timeout") = readySession ∧
    (generateExplanationsInBackground readySession
        (Except.ok exampleExplDoc)).quizExplanations =
      some [Json.str "detailed explanation one"] ∧
    resultExplanation none 0 (JsVal.val (Json.str "brief")) = JsVal.val (Json.str "brief") :=
  have h1 := explanations_touch_only_explanations readySession (Except.error "timeout")
    0 (JsVal.val (Json.str "brief"))
  have h2 := explanations_touch_only_explanations readySession (Except.ok exampleExplDoc)
    0 (JsVal.val (Json.str "brief"))
  ⟨h1.2.1 "timeout" rfl,
   h2.2.2.1 exampleExplDoc [Json.str "detailed explanation one"] rfl rfl,
   h1.2.2.2.trans (by rfl)⟩

/-- C6: `nextQuestion` is a rejected no-op (no progress save, index
unchanged) when the current answer slot is unset; otherwise it advances:
below the last index it increments the index and persists `in_progress`,
and on the last index it persists `completed`. -/
theorem nextQuestion_spec (numQuestions currentQuestion : Nat)
    (userAnswers : List (Option Nat)) (s : Session) :
    (userAnswers.getD currentQuestion none = none →
      nextQuestion numQuestions currentQuestion userAnswers =
        { currentQuestion := currentQuestion, saved := none }) ∧
    (userAnswers.getD currentQuestion none ≠ none →
      currentQuestion < numQuestions - 1 →
      (nextQuestion numQuestions currentQuestion userAnswers).currentQuestion
          = currentQuestion + 1 ∧
      ∃ m, (nextQuestion numQuestions currentQuestion userAnswers).saved = some m ∧
        (handleSaveProgress s m).quizState = .in_progress ∧
        (handleSaveProgress s m).quizCurrentQuestion = currentQuestion + 1 ∧
        (handleSaveProgress s m).quizUserAnswers = userAnswers) ∧
    (userAnswers.getD currentQuestion none ≠ none →
      ¬ currentQuestion < numQuestions - 1 →
      (nextQuestion numQuestions currentQuestion userAnswers).currentQuestion
          = currentQuestion ∧
      ∃ m, (nextQuestion numQuestions currentQuestion userAnswers).saved = some m ∧
        (handleSaveProgress s m).quizState = .completed ∧
        (handleSaveProgress s m).quizUserAnswers = userAnswers) := by
  refine ⟨?_, ?_, ?_⟩
  · intro h; unfold nextQuestion; rw [if_pos h]
  · intro h hlt
    unfold nextQuestion
    rw [if_neg h, if_pos hlt]
    exact ⟨rfl, _, rfl, rfl, rfl, rfl⟩
  · intro h hge
    unfold nextQuestion
    rw [if_neg h, if_neg hge]
    exact ⟨rfl, _, rfl, rfl, rfl⟩

/-- Witness for C6 on a concrete two-question quiz: rejected with no
answer, advancing from question 0, completing from question 1. -/
theorem nextQuestion_spec_witness :
    nextQuestion 2 0 [] = { currentQuestion := 0, saved := none } ∧
    (nextQuestion 2 0 [some 1]).currentQuestion = 1 ∧
    (∃ m, (nextQuestion 2 1 [some 1, some 0]).saved = some m ∧
      (handleSaveProgress readySession m).quizState = .completed ∧
      (handleSaveProgress readySession m).quizUserAnswers = [some 1, some 0]) :=
  have h0 := nextQuestion_spec 2 0 [] readySession
  have h1 := nextQuestion_spec 2 0 [some 1] readySession
  have h2 := nextQuestion_spec 2 1 [some 1, some 0] readySession
  ⟨h0.1 rfl,
   (h1.2.1 (by decide) (by decide)).1,
   (h2.2.2 (by decide) (by decide)).2⟩

/-- C10: opening the popup (or a poll tick) on a `ready` session shows the
quiz view and immediately persists `in_progress` with question index 0 and
an empty answers array; after that write the stored state is `in_progress`,
so `ready` is not observable at the next popup opening. -/
theorem ready_immediately_persisted_in_progress (s : Session) (configured : Bool)
    (hready : s.quizState = .ready) :
    restoreSession s configured = (.quizView, some startInProgressMsg) ∧
    pollStep s = some (.quizView, some startInProgressMsg) ∧
    (handleSaveProgress s startInProgressMsg).quizState = .in_progress ∧
    (handleSaveProgress s startInProgressMsg).quizCurrentQuestion = 0 ∧
    (handleSaveProgress s startInProgressMsg).quizUserAnswers = [] ∧
    (handleSaveProgress s startInProgressMsg).quizState ≠ .ready := by
  refine ⟨?_, ?_, ?_, ?_, ?_, ?_⟩ <;>
    simp [restoreSession, pollStep, handleSaveProgress, startInProgressMsg, hready]

/-- Witness for C10 at a concrete ready session. -/
theorem ready_immediately_persisted_in_progress_witness :
    restoreSession readySession true = (.quizView, some startInProgressMsg) ∧
    (handleSaveProgress readySession startInProgressMsg).quizState = .in_progress :=
  have h := ready_immediately_persisted_in_progress readySession true rfl
  ⟨h.1, h.2.2.1⟩

/-- C9 counterexample: the parser accepts a document whose only question has
a single option and `correctIndex = 7`, and `handleGenerateQuiz` stores it
and reaches `ready` — the Question invariant does not hold of every ready
session. -/
theorem parser_accepts_invariant_violating_quiz :
    parseQuizJSON jsonParse (Json.render badDoc) = Except.ok badDoc ∧
    (handleGenerateQuiz clearedSession true (some ⟨"t", 600⟩) ⟨15⟩
        (Except.ok badDoc)).finalSession.quizState = .ready ∧
    (handleGenerateQuiz clearedSession true (some ⟨"t", 600⟩) ⟨15⟩
        (Except.ok badDoc)).finalSession.quizData = some badDoc ∧
    jsonQuestionsArr badDoc = some [badQuestion] ∧
    questionOkB badQuestion = false :=
  ⟨rfl, rfl, rfl, rfl, rfl⟩

/-- C9 amended: the parser performs no schema validation and the orchestrator
stores the parsed document unchanged, so the questions of a `ready` session
satisfy the Question invariant exactly when the provider's document's
questions do. -/
theorem ready_quizData_is_provider_document (s : Session) (ext : Extraction)
    (settings : Settings) (doc : Json) (qs : List Json)
    (hw : 50 ≤ ext.wordCount) (hqs : jsonQuestionsArr doc = some qs) :
    (handleGenerateQuiz s true (some ext) settings (Except.ok doc)).finalSession.quizState
      = .ready ∧
    (handleGenerateQuiz s true (some ext) settings (Except.ok doc)).finalSession.quizData
      = some doc ∧
    sessionQuestionsOkB
        (handleGenerateQuiz s true (some ext) settings (Except.ok doc)).finalSession
      = qs.all questionOkB := by
  have hne : ¬ ext.wordCount < 50 := not_lt.mpr hw
  obtain ⟨fs, rfl, hlf⟩ : ∃ fs, doc = Json.obj fs ∧
      lookupField "questions" fs = some (Json.arr qs) := by
    cases doc with
    | obj fs =>
      refine ⟨fs, rfl, ?_⟩
      simp only [jsonQuestionsArr] at hqs
      cases hl : lookupField "questions" fs with
      | none => simp [hl] at hqs
      | some v =>
        cases v with
        | arr xs => simp [hl] at hqs; rw [hqs]
        | null => simp [hl] at hqs
        | bool b => simp [hl] at hqs
        | num i => simp [hl] at hqs
        | str t => simp [hl] at hqs
        | obj gs => simp [hl] at hqs
    | null => exact absurd hqs (by simp [jsonQuestionsArr])
    | bool b => exact absurd hqs (by simp [jsonQuestionsArr])
    | num i => exact absurd hqs (by simp [jsonQuestionsArr])
    | str t => exact absurd hqs (by simp [jsonQuestionsArr])
    | arr xs => exact absurd hqs (by simp [jsonQuestionsArr])
  have hget : jsGetProp (Json.obj fs) "questions" = some (JsVal.val (Json.arr qs)) := by
    simp [jsGetProp, hlf]
  refine ⟨?_, ?_, ?_⟩
  · simp [handleGenerateQuiz, hne, hget, jsGetLength]
  · simp [handleGenerateQuiz, hne, hget, jsGetLength]
  · simp [handleGenerateQuiz, hne, hget, jsGetLength, sessionQuestionsOkB,
      jsonQuestionsArr, hlf]

/-- Witness for the amended C9 at a well-formed concrete document: the
stored questions all satisfy the invariant because the document's do. -/
theorem ready_quizData_is_provider_document_witness :
    (handleGenerateQuiz clearedSession true (some ⟨"t", 600⟩) ⟨15⟩
        (Except.ok exampleDoc)).finalSession.quizState = .ready ∧
    sessionQuestionsOkB
        (handleGenerateQuiz clearedSession true (some ⟨"t", 600⟩) ⟨15⟩
          (Except.ok exampleDoc)).finalSession = true :=
  have h := ready_quizData_is_provider_document clearedSession ⟨"t", 600⟩ ⟨15⟩
    exampleDoc [exampleQuestion] (by decide) rfl
  ⟨h.1, h.2.2.trans (by rfl)⟩

theorem isPrefixOf_append_self (p rest : List Char) : p.isPrefixOf (p ++ rest) = true := by
  induction p with
  | nil => simp [List.isPrefixOf]
  | cons a as ih => simp [List.isPrefixOf, ih]

theorem splitFirst_self (p rest : List Char) (hp : p ≠ []) :
    splitFirst p (p ++ rest) = some ([], rest) := by
  cases p with
  | nil => exact absurd rfl hp
  | cons a as =>
    show splitFirst (a :: as) (a :: (as ++ rest)) = some ([], rest)
    have h1 : (a :: as).isPrefixOf (a :: (as ++ rest)) = true := by
      simp [List.cons_append]
    have h2 : (a :: (as ++ rest)).drop (a :: as).length = rest := by
      simp [List.cons_append]
    simp [splitFirst, h1, h2]

theorem splitFirst_fence_of_clean (u rest : List Char)
    (hu : ∀ c ∈ u, c ≠ backtick) :
    splitFirst fenceMarker (u ++ (fenceMarker ++ rest)) = some (u, rest) := by
  induction u with
  | nil => simpa using splitFirst_self fenceMarker rest (by decide)
  | cons c u' ih =>
    have hc : c ≠ backtick := hu c (List.mem_cons_self c u')
    have ihr := ih (fun d hd => hu d (List.mem_cons_of_mem c hd))
    have hpreB : fenceMarker.isPrefixOf (c :: (u' ++ (fenceMarker ++ rest))) = false := by
      show List.isPrefixOf (backtick :: [backtick, backtick]) _ = false
      simp [List.isPrefixOf, beq_eq_false_iff_ne.mpr (Ne.symm hc)]
    show splitFirst fenceMarker (c :: (u' ++ (fenceMarker ++ rest))) = some (c :: u', rest)
    simp only [splitFirst]
    rw [hpreB]
    simp [ihr]

theorem headNonWs_elim (s : String) (hhd : headNonWs s = true) :
    ∃ c t, s.data = c :: t ∧ c.isWhitespace = false := by
  cases h : s.data with
  | nil => simp [headNonWs, h] at hhd
  | cons c t =>
    refine ⟨c, t, rfl, ?_⟩
    simpa [headNonWs, h] using hhd

theorem lastNonWs_elim (s : String) (hlt : lastNonWs s = true) :
    ∃ d r, s.data.reverse = d :: r ∧ d.isWhitespace = false := by
  cases h : s.data.getLast? with
  | none => simp [lastNonWs, h] at hlt
  | some d =>
    have hh : s.data.reverse.head? = some d := by rw [List.head?_reverse]; exact h
    cases hrev : s.data.reverse with
    | nil => rw [hrev] at hh; cases hh
    | cons d' r =>
      rw [hrev] at hh
      have hdd : d' = d := by simpa using hh
      subst hdd
      exact ⟨d', r, rfl, by simpa [lastNonWs, h] using hlt⟩

theorem jsTrim_append_newline (s : String)
    (hhd : headNonWs s = true) (hlt : lastNonWs s = true) :
    jsTrim (String.mk (s.data ++ ['\n'])) = s := by
  obtain ⟨c, t, hct, hcw⟩ := headNonWs_elim s hhd
  obtain ⟨d, r, hrev, hdw⟩ := lastNonWs_elim s hlt
  have step1 : (s.data ++ ['\n']).dropWhile (·.isWhitespace) = s.data ++ ['\n'] := by
    rw [hct, List.cons_append, List.dropWhile_cons]
    simp [hcw]
  have step2 : (s.data ++ ['\n']).reverse = '\n' :: s.data.reverse := by
    simp [List.reverse_append]
  have step3 : ('\n' :: s.data.reverse).dropWhile (·.isWhitespace) = s.data.reverse := by
    rw [List.dropWhile_cons]
    simp only [show ('\n'.isWhitespace) = true from rfl, if_true]
    rw [hrev, List.dropWhile_cons]
    simp [hdw]
  have hfinal : ((((s.data ++ ['\n']).dropWhile (·.isWhitespace)).reverse).dropWhile
      (·.isWhitespace)).reverse = s.data := by
    rw [step1, step2, step3, List.reverse_reverse]
  show String.mk _ = s
  rw [hfinal]

theorem extractFence_fenceWrap (s : String)
    (hnb : ∀ c ∈ s.data, c ≠ backtick) (hhd : headNonWs s = true) :
    extractFence (fenceWrap s) = some (String.mk (s.data ++ ['\n'])) := by
  obtain ⟨c, t, hct, hcw⟩ := headNonWs_elim s hhd
  have hdata : (fenceWrap s).data
      = fenceMarker ++ (['j','s','o','n','\n'] ++ (s.data ++ (['\n'] ++ fenceMarker))) := by
    show fenceMarker ++ ['j','s','o','n','\n'] ++ s.data ++ ['\n'] ++ fenceMarker = _
    simp [List.append_assoc]
  have h1 : splitFirst fenceMarker (fenceWrap s).data
      = some ([], ['j','s','o','n','\n'] ++ (s.data ++ (['\n'] ++ fenceMarker))) := by
    rw [hdata]; exact splitFirst_self _ _ (by decide)
  have h2 : ("json".data).isPrefixOf
      (['j','s','o','n','\n'] ++ (s.data ++ (['\n'] ++ fenceMarker))) = true := by
    show List.isPrefixOf ['j','s','o','n']
      ('j' :: 's' :: 'o' :: 'n' :: '\n' :: (s.data ++ (['\n'] ++ fenceMarker))) = true
    simp [List.isPrefixOf]
  have h3 : ((['j','s','o','n','\n'] ++ (s.data ++ (['\n'] ++ fenceMarker))).drop 4).dropWhile
      (·.isWhitespace) = s.data ++ (['\n'] ++ fenceMarker) := by
    show ('\n' :: (s.data ++ (['\n'] ++ fenceMarker))).dropWhile (·.isWhitespace) = _
    rw [List.dropWhile_cons]
    simp only [show ('\n'.isWhitespace) = true from rfl, if_true]
    rw [hct, List.cons_append, List.dropWhile_cons]
    simp [hcw]
  have h4 : splitFirst fenceMarker (s.data ++ (['\n'] ++ fenceMarker))
      = some (s.data ++ ['\n'], []) := by
    have hu : ∀ e ∈ s.data ++ ['\n'], e ≠ backtick := by
      intro e he
      rcases List.mem_append.mp he with h | h
      · exact hnb e h
      · simp at h; subst h; decide
    have hsplit := splitFirst_fence_of_clean (s.data ++ ['\n']) [] hu
    simpa [List.append_assoc] using hsplit
  simp only [extractFence, h1, h2, if_true, h3, h4]

/-- C7 counterexample: when both parse attempts fail, the thrown error is the
fixed message `Failed to parse quiz response as JSON` (and in the fenced case
the platform SyntaxError): the original raw text is not attached to it. -/
theorem parse_failure_error_lacks_raw_text :
    parseQuizJSON jsonParse "The model returned prose instead of a quiz document"
      = Except.error "Failed to parse quiz response as JSON" ∧
    containsSubB "Failed to parse quiz response as JSON"
      "The model returned prose instead of a quiz document" = false :=
  ⟨rfl, rfl⟩

/-- C7 amended: for a JSON parser satisfying the platform round-trip on the
serialized document, `parseQuizJSON` recovers the document both from the bare
serialization (direct strict parse first) and from a fenced code block with a
`json` language tag (fence extraction second); the double-failure error is a
fixed message that does not carry the raw text (see the counterexample). The
side conditions state that the serialized document is fence-free, starts and
ends with non-whitespace, and is not itself parseable once fenced. -/
theorem parseQuizJSON_roundtrip (jparse : String → Option Json) (d : Json)
    (hdirect : jparse (Json.render d) = some d)
    (hfenced : jparse (fenceWrap (Json.render d)) = none)
    (hnb : ∀ c ∈ (Json.render d).data, c ≠ backtick)
    (hhd : headNonWs (Json.render d) = true)
    (hlt : lastNonWs (Json.render d) = true) :
    parseQuizJSON jparse (Json.render d) = Except.ok d ∧
    parseQuizJSON jparse (fenceWrap (Json.render d)) = Except.ok d := by
  constructor
  · simp [parseQuizJSON, hdirect]
  · have he := extractFence_fenceWrap (Json.render d) hnb hhd
    have ht := jsTrim_append_newline (Json.render d) hhd hlt
    simp [parseQuizJSON, hfenced, he, ht, hdirect]

/-- Witness for the amended C7: the concrete example quiz document round-trips
through the concrete `jsonParse`, bare and fenced. -/
theorem parseQuizJSON_roundtrip_witness :
    parseQuizJSON jsonParse (Json.render exampleDoc) = Except.ok exampleDoc ∧
    parseQuizJSON jsonParse (fenceWrap (Json.render exampleDoc)) = Except.ok exampleDoc :=
  parseQuizJSON_roundtrip jsonParse exampleDoc rfl rfl (by decide) (by decide) (by decide)

theorem fccFoldl_spec (l : List Elem) (acc : Option Elem × ℚ) :
    acc.2 ≤ (l.foldl fccStep acc).2 ∧
    (l.foldl fccStep acc = acc ∨
      ∃ el ∈ l, (l.foldl fccStep acc).1 = some el ∧
        (l.foldl fccStep acc).2 = scoreElement el ∧
        isHiddenOrTiny el = false ∧ acc.2 < (l.foldl fccStep acc).2) ∧
    (∀ el ∈ l, isHiddenOrTiny el = false → scoreElement el ≤ (l.foldl fccStep acc).2) := by
  induction l generalizing acc with
  | nil =>
    refine ⟨le_refl _, Or.inl rfl, ?_⟩
    intro el hel
    exact absurd hel (List.not_mem_nil el)
  | cons e rest ih =>
    rw [List.foldl_cons]
    by_cases hh : isHiddenOrTiny e = true
    · have hstep : fccStep acc e = acc := by simp [fccStep, hh]
      rw [hstep]
      obtain ⟨ha, hb, hc⟩ := ih acc
      refine ⟨ha, ?_, ?_⟩
      · rcases hb with heq | ⟨el, hel, h1, h2, h3, h4⟩
        · exact Or.inl heq
        · exact Or.inr ⟨el, List.mem_cons_of_mem e hel, h1, h2, h3, h4⟩
      · intro el hel hvis
        rcases List.mem_cons.mp hel with rfl | hel'
        · simp [hh] at hvis
        · exact hc el hel' hvis
    · have hh' : isHiddenOrTiny e = false := by simpa using hh
      by_cases hlt2 : acc.2 < scoreElement e
      · have hstep : fccStep acc e = (some e, scoreElement e) := by
          simp [fccStep, hh', hlt2]
        rw [hstep]
        obtain ⟨ha, hb, hc⟩ := ih (some e, scoreElement e)
        have ha' : scoreElement e ≤ (rest.foldl fccStep (some e, scoreElement e)).2 := ha
        refine ⟨le_of_lt (lt_of_lt_of_le hlt2 ha'), ?_, ?_⟩
        · rcases hb with heq | ⟨el, hel, h1, h2, h3, h4⟩
          · refine Or.inr ⟨e, List.mem_cons_self e rest, ?_, ?_, hh', ?_⟩
            · rw [heq]
            · rw [heq]
            · rw [heq]; exact hlt2
          · exact Or.inr ⟨el, List.mem_cons_of_mem e hel, h1, h2, h3, lt_trans hlt2 h4⟩
        · intro el hel hvis
          rcases List.mem_cons.mp hel with rfl | hel'
          · exact ha'
          · exact hc el hel' hvis
      · have hstep : fccStep acc e = acc := by simp [fccStep, hh', hlt2]
        rw [hstep]
        obtain ⟨ha, hb, hc⟩ := ih acc
        refine ⟨ha, ?_, ?_⟩
        · rcases hb with heq | ⟨el, hel, h1, h2, h3, h4⟩
          · exact Or.inl heq
          · exact Or.inr ⟨el, List.mem_cons_of_mem e hel, h1, h2, h3, h4⟩
        · intro el hel hvis
          rcases List.mem_cons.mp hel with rfl | hel'
          · exact le_trans (not_lt.mp hlt2) ha
          · exact hc el hel' hvis

theorem scoreElement_pos (el : Elem) (h : 0 < (jsTrim el.innerText).data.length) :
    0 < scoreElement el := by
  unfold scoreElement
  apply div_pos
  · exact_mod_cast h
  · have hden : 0 < (if el.childCount = 0 then 1 else el.childCount) := by
      by_cases hc : el.childCount = 0
      · simp [hc]
      · simp [hc]; omega
    exact_mod_cast hden

/-- C8 counterexample: a matching, visible, normally sized candidate whose
visible text is empty scores 0, which never beats the initial best score of 0
(the comparison is strict), so `findContentContainer` falls back to the page
body even though a candidate qualifies. -/
theorem qualifying_candidate_still_falls_back_to_body :
    isHiddenOrTiny emptyCandidate = false ∧
    findContentContainer [emptyCandidate] pageBody = pageBody ∧
    pageBody ≠ emptyCandidate := by
  refine ⟨rfl, ?_, by decide⟩
  have hsc : scoreElement emptyCandidate = 0 := by
    have h0 : (jsTrim emptyCandidate.innerText).data.length = 0 := by decide
    unfold scoreElement
    rw [h0]
    norm_num
  have hstep : fccStep (none, 0) emptyCandidate = (none, 0) := by
    unfold fccStep
    rw [if_neg (by decide : ¬ (isHiddenOrTiny emptyCandidate = true))]
    rw [hsc]
    simp
  simp [findContentContainer, List.foldl_cons, List.foldl_nil, hstep]

/-- C8 amended: among the matching candidates, `findContentContainer` keeps a
visible, non-tiny candidate of maximal score — the score being the trimmed
visible text length divided by `max(directChildCount, 1)` — provided some
visible candidate has a strictly positive score; it falls back to the page
body when every candidate is hidden, tiny, or scores 0. -/
theorem findContentContainer_spec (cands : List Elem) (body : Elem) :
    ((∀ el ∈ cands, isHiddenOrTiny el = true ∨ scoreElement el ≤ 0) →
      findContentContainer cands body = body) ∧
    ((∃ el ∈ cands, isHiddenOrTiny el = false ∧ 0 < scoreElement el) →
      ∃ b ∈ cands, findContentContainer cands body = b ∧
        isHiddenOrTiny b = false ∧ 0 < scoreElement b ∧
        ∀ el ∈ cands, isHiddenOrTiny el = false → scoreElement el ≤ scoreElement b) := by
  obtain ⟨ha, hb, hc⟩ := fccFoldl_spec cands (none, 0)
  constructor
  · intro hnone
    rcases hb with heq | ⟨el, hel, h1, h2, h3, h4⟩
    · unfold findContentContainer
      rw [heq]
      rfl
    · rcases hnone el hel with hhid | hle
      · simp [h3] at hhid
      · rw [h2] at h4
        exact absurd h4 (not_lt.mpr hle)
  · rintro ⟨el0, hel0, hvis0, hpos0⟩
    have hr2pos : (0 : ℚ) < (cands.foldl fccStep (none, 0)).2 :=
      lt_of_lt_of_le hpos0 (hc el0 hel0 hvis0)
    rcases hb with heq | ⟨b, hbmem, h1, h2, h3, h4⟩
    · rw [heq] at hr2pos
      exact absurd hr2pos (lt_irrefl 0)
    · refine ⟨b, hbmem, ?_, h3, ?_, ?_⟩
      · unfold findContentContainer
        rw [h1]
        rfl
      · rw [h2] at hr2pos; exact hr2pos
      · intro el hel hvis
        have hle := hc el hel hvis
        rw [h2] at hle; exact hle

/-- Witness for the amended C8 on two concrete visible candidates: the
selected element is a member, visible, positively scored, and maximal. -/
theorem findContentContainer_spec_witness :
    ∃ b ∈ [candA, candB], findContentContainer [candA, candB] pageBody = b ∧
      isHiddenOrTiny b = false ∧ 0 < scoreElement b ∧
      ∀ el ∈ [candA, candB], isHiddenOrTiny el = false → scoreElement el ≤ scoreElement b :=
  (findContentContainer_spec [candA, candB] pageBody).2
    ⟨candA, List.mem_cons_self candA [candB], rfl, scoreElement_pos candA (by decide)⟩
